import Mathlib

set_option maxRecDepth 8000

/-!
Shallow embedding of the `canbus` / `canopen` Go library: classical CAN
frame codec, COB-ID mapping, SDO client protocol engine, and the loopback
bus.  Machine integers are modelled as `Nat` with explicit `% 2^w` where
the Go code can wrap; fallible Go functions (returning `error`) become
`Except` / `Option`-valued Lean functions.
-/

namespace Canbus

/-- Error values of the `canbus` package (`ErrClosed`, `ErrInvalidID`,
`ErrInvalidLen`, and the short-buffer unmarshal error). -/
inductive CanErr where
  | errClosed
  | errInvalidID
  | errInvalidLen
  | needBytes (got : Nat)
deriving DecidableEq, Repr

/-- `canbus.Frame`: classical CAN frame.  `id` is a `uint32` value, `len` a
`uint8`, `data` the fixed 8-byte array (modelled as a list of byte values;
well-formed frames have `data.length = 8`). -/
structure Frame where
  id : Nat
  extended : Bool
  rtr : Bool
  len : Nat
  data : List Nat
deriving DecidableEq, Repr

/-- The all-zero `canbus.Frame` (Go zero value). -/
def Frame.zero : Frame :=
  { id := 0, extended := false, rtr := false, len := 0, data := List.replicate 8 0 }

def maxStdID : Nat := 0x7FF
def maxExtID : Nat := 0x1FFFFFFF

/-- `Frame.Validate`: `none` means valid (Go returns `nil`). -/
def Frame.Validate (f : Frame) : Option CanErr :=
  if f.len > 8 then some .errInvalidLen
  else if f.extended then
    if f.id > maxExtID then some .errInvalidID else none
  else
    if f.id > maxStdID then some .errInvalidID else none

/-- `binary.LittleEndian.PutUint32`: the four bytes of `v` (little-endian). -/
def putU32 (v : Nat) : List Nat :=
  [v % 256, v / 256 % 256, v / 65536 % 256, v / 16777216 % 256]

/-- `binary.LittleEndian.Uint32` over four bytes. -/
def getU32 (b0 b1 b2 b3 : Nat) : Nat :=
  b0 + 256 * b1 + 65536 * b2 + 16777216 * b3

/-- `binary.LittleEndian.PutUint16`. -/
def putU16 (v : Nat) : List Nat := [v % 256, v / 256 % 256]

/-- `binary.LittleEndian.Uint16`. -/
def getU16 (b0 b1 : Nat) : Nat := b0 + 256 * b1

def canEffFlag : Nat := 0x80000000
def canRtrFlag : Nat := 0x40000000
def canEffMask : Nat := 0x1FFFFFFF
def canStdMask : Nat := 0x7FF

/-- `Frame.MarshalBinary`: validate, OR the EFF/RTR flags into the id,
emit the 16-byte SocketCAN `can_frame` layout. -/
def Frame.MarshalBinary (f : Frame) : Except CanErr (List Nat) :=
  match f.Validate with
  | some e => .error e
  | none =>
    let id1 := if f.extended then f.id ||| canEffFlag else f.id
    let id2 := if f.rtr then id1 ||| canRtrFlag else id1
    .ok (putU32 id2 ++ [f.len] ++ [0, 0, 0] ++ f.data)

/-- `Frame.UnmarshalBinary`: decode the 16-byte layout (the Go code requires
`len(data) >= 16` and reads indices 0..4 and 8..15; here the layout is taken
apart by pattern matching on the first 16 bytes), mask the id, re-validate. -/
def Frame.UnmarshalBinary (buf : List Nat) : Except CanErr Frame :=
  match buf with
  | b0 :: b1 :: b2 :: b3 :: b4 :: _ :: _ :: _ ::
      d0 :: d1 :: d2 :: d3 :: d4 :: d5 :: d6 :: d7 :: _ =>
    let id := getU32 b0 b1 b2 b3
    let ext : Bool := id &&& canEffFlag != 0
    let rr : Bool := id &&& canRtrFlag != 0
    let mid := if ext then id &&& canEffMask else id &&& canStdMask
    let f : Frame :=
      { id := mid, extended := ext, rtr := rr,
        len := b4, data := [d0, d1, d2, d3, d4, d5, d6, d7] }
    match f.Validate with
    | some e => .error e
    | none => .ok f
  | _ => .error (.needBytes buf.length)

end Canbus

namespace Canopen

open Canbus

/-- Errors of the `canopen` package (plus `canbus.ErrClosed`, which the SDO
client returns from its wait paths). -/
inductive CoErr where
  | errClosed
  | invalidNodeID (n : Nat)
  | invalidCOBID (id : Nat)
  | notInRanges (id : Nat)
  | expeditedTooLong (n : Nat)
  | classicExpeditedLen (n : Nat)
  | abort (index : Nat) (subindex : Nat) (code : Nat)
  | unexpectedResponse (cmd : Nat)
  | unexpectedExpeditedFlag
  | uploadInitiateMismatch
  | invalidSegmentLength
  | sizeMismatch (got : Nat) (want : Int)
  | notSDORxFrame (id : Nat)
  | notSDOTxFrame (id : Nat)
  | badSDOLen (l : Nat)
  | notInitiateDownload (cmd : Nat)
  | onlyExpeditedSupported (cmd : Nat)
  | invalidN (n : Nat)
deriving DecidableEq, Repr

/-- `NodeID.Validate`: valid range 1..127. -/
def nodeValidate (n : Nat) : Option CoErr :=
  if n < 1 ∨ n > 127 then some (.invalidNodeID n) else none

def FC_SYNC : Nat := 0x080
def FC_TIME : Nat := 0x100
def FC_TPDO1 : Nat := 0x180
def FC_RPDO1 : Nat := 0x200
def FC_TPDO2 : Nat := 0x280
def FC_RPDO2 : Nat := 0x300
def FC_TPDO3 : Nat := 0x380
def FC_RPDO3 : Nat := 0x400
def FC_TPDO4 : Nat := 0x480
def FC_RPDO4 : Nat := 0x500
def FC_SDO_TX : Nat := 0x580
def FC_SDO_RX : Nat := 0x600
def FC_NMT : Nat := 0x000
def FC_NMT_ERRCTRL : Nat := 0x700
def FC_EMCY : Nat := 0x080

/-- `COBID`: fixed id for NMT and TIME, else `base + node` in `uint16`
arithmetic. -/
def COBID (fc : Nat) (node : Nat) : Nat :=
  if fc = FC_NMT ∨ fc = FC_TIME then fc else (fc + node) % 65536

/-- `ParseCOBID`: fixed ids first, then the node-suffixed base ranges. -/
def ParseCOBID (id : Nat) : Except CoErr (Nat × Nat) :=
  if id > 0x7FF then .error (.invalidCOBID id)
  else if id = FC_NMT then .ok (FC_NMT, 0)
  else if id = FC_SYNC then .ok (FC_SYNC, 0)
  else if id = FC_TIME then .ok (FC_TIME, 0)
  else if 0x080 ≤ id ∧ id ≤ 0x0FF then .ok (FC_EMCY, id - 0x080)
  else if 0x180 ≤ id ∧ id ≤ 0x1FF then .ok (FC_TPDO1, id - 0x180)
  else if 0x200 ≤ id ∧ id ≤ 0x27F then .ok (FC_RPDO1, id - 0x200)
  else if 0x280 ≤ id ∧ id ≤ 0x2FF then .ok (FC_TPDO2, id - 0x280)
  else if 0x300 ≤ id ∧ id ≤ 0x37F then .ok (FC_RPDO2, id - 0x300)
  else if 0x380 ≤ id ∧ id ≤ 0x3FF then .ok (FC_TPDO3, id - 0x380)
  else if 0x400 ≤ id ∧ id ≤ 0x47F then .ok (FC_RPDO3, id - 0x400)
  else if 0x480 ≤ id ∧ id ≤ 0x4FF then .ok (FC_TPDO4, id - 0x480)
  else if 0x500 ≤ id ∧ id ≤ 0x57F then .ok (FC_RPDO4, id - 0x500)
  else if 0x580 ≤ id ∧ id ≤ 0x5FF then .ok (FC_SDO_TX, id - 0x580)
  else if 0x600 ≤ id ∧ id ≤ 0x67F then .ok (FC_SDO_RX, id - 0x600)
  else if 0x700 ≤ id ∧ id ≤ 0x77F then .ok (FC_NMT_ERRCTRL, id - 0x700)
  else .error (.notInRanges id)

/-- The function codes quantified over in the COB-ID round-trip claim. -/
def roundTripFCs : List Nat :=
  [FC_TPDO1, FC_TPDO2, FC_TPDO3, FC_TPDO4,
   FC_RPDO1, FC_RPDO2, FC_RPDO3, FC_RPDO4,
   FC_SDO_RX, FC_SDO_TX, FC_NMT_ERRCTRL, FC_EMCY]

/-! SDO command specifiers (CCS/SCS) per CiA 301. -/

def sdoCCSDownloadInitiate : Nat := 1
def sdoCCSUploadInitiate : Nat := 2
def sdoSCSDownloadInitiate : Nat := 3
def sdoSCSUploadInitiate : Nat := 2
def sdoCCSDownloadSegment : Nat := 0
def sdoSCSDownloadSegment : Nat := 1
def sdoCCSUploadSegment : Nat := 3
def sdoSCSUploadSegment : Nat := 0
def sdoSCSAbort : Nat := 4

/-- Sequential byte-array writes: `overwrite l off src` copies `src` into `l`
starting at index `off` (the Go `copy(dst[off:off+len(src)], src)` and the
per-byte assignment loops). -/
def overwrite (l : List Nat) (off : Nat) : List Nat → List Nat
  | [] => l
  | b :: bs => overwrite (l.set off b) (off + 1) bs

/-- Helper `sdoCmd`: SDO command specifier, bits 7..5 of byte 0. -/
def sdoCmd (f : Frame) : Nat := (f.data.getD 0 0 >>> 5) &&& 0x7

/-- Toggle bit of an SDO segment command byte (bit 4). -/
def toggleBit (f : Frame) : Nat := (f.data.getD 0 0 >>> 4) &&& 1

/-- Continuation-end bit `c` of an SDO segment command byte (bit 0). -/
def cBit (f : Frame) : Nat := f.data.getD 0 0 &&& 1

/-- Unused-byte count `n` of an SDO segment command byte (bits 1..3). -/
def nBits (f : Frame) : Nat := (f.data.getD 0 0 >>> 1) &&& 7

/-- `sdoExpeditedDownload`: client→server expedited download frame in the
spec-pure encoding (CCS=1, e=1, s=1, n = 4 - len, truncated to 2 bits). -/
def sdoExpeditedDownload (target index subindex : Nat) (data : List Nat) :
    Except CoErr Frame :=
  match nodeValidate target with
  | some e => .error e
  | none =>
    if data.length > 4 then .error (.expeditedTooLong data.length)
    else
      let n := 4 - data.length
      let cmd := (((0 ||| (sdoCCSDownloadInitiate <<< 5)) ||| (1 <<< 3)) ||| (1 <<< 2))
        ||| (n &&& 0x3)
      let d0 := (List.replicate 8 0).set 0 cmd
      let d1 := overwrite d0 1 (putU16 index)
      let d2 := d1.set 3 subindex
      let d3 := overwrite d2 4 data
      .ok { id := COBID FC_SDO_RX target, extended := false, rtr := false,
            len := 8, data := d3 }

/-- `sdoExpeditedDownloadClassic`: legacy encoding `0x23 + ((4-n) << 2)`;
rejects empty payloads (requires 1..4 bytes). -/
def sdoExpeditedDownloadClassic (target index subindex : Nat) (data : List Nat) :
    Except CoErr Frame :=
  match nodeValidate target with
  | some e => .error e
  | none =>
    if data.length = 0 ∨ data.length > 4 then .error (.classicExpeditedLen data.length)
    else
      let n := data.length
      let cmd := 0x23 + ((4 - n) <<< 2)
      let d0 := (List.replicate 8 0).set 0 cmd
      let d1 := overwrite d0 1 (putU16 index)
      let d2 := d1.set 3 subindex
      let d3 := overwrite d2 4 data
      .ok { id := COBID FC_SDO_RX target, extended := false, rtr := false,
            len := 8, data := d3 }

/-- `parseSDOExpeditedDownload`: decode an expedited initiate download
request, returning (node, index, subindex, data). -/
def parseSDOExpeditedDownload (f : Frame) :
    Except CoErr (Nat × Nat × Nat × List Nat) :=
  match ParseCOBID f.id with
  | .error e => .error e
  | .ok (fc, node) =>
    if fc ≠ FC_SDO_RX then .error (.notSDORxFrame f.id)
    else if f.len ≠ 8 then .error (.badSDOLen f.len)
    else
      let cmd := f.data.getD 0 0
      if (cmd >>> 5) &&& 0x7 ≠ sdoCCSDownloadInitiate then
        .error (.notInitiateDownload cmd)
      else if ¬ (cmd &&& (1 <<< 3) ≠ 0 ∧ cmd &&& (1 <<< 2) ≠ 0) then
        .error (.onlyExpeditedSupported cmd)
      else
        let n := cmd &&& 0x3
        if n > 3 then .error (.invalidN n)
        else
          let size := 4 - n
          .ok (node, getU16 (f.data.getD 1 0) (f.data.getD 2 0), f.data.getD 3 0,
            (f.data.drop 4).take size)

/-- `buildSDODownloadInitiateSegmented` (size indicated, e=0, s=1). -/
def buildSDODownloadInitiateSegmented (node index subindex total : Nat) : Frame :=
  let cmd := (sdoCCSDownloadInitiate <<< 5) ||| (1 <<< 2)
  let d0 := (List.replicate 8 0).set 0 cmd
  let d1 := overwrite d0 1 (putU16 index)
  let d2 := d1.set 3 subindex
  let d3 := overwrite d2 4 (putU32 total)
  { id := COBID FC_SDO_RX node, extended := false, rtr := false, len := 8, data := d3 }

/-- `buildSDODownloadSegment`: download segment with up to 7 payload bytes;
on the last segment set `c=1` and `n = 7 - len(payload)` in bits 1..3
(callers only pass payloads of length 1..7). -/
def buildSDODownloadSegment (node : Nat) (payload : List Nat) (toggle : Nat)
    (last : Bool) : Frame :=
  let cmd0 := sdoCCSDownloadSegment <<< 5
  let cmd1 := if toggle &&& 1 = 1 then cmd0 ||| (1 <<< 4) else cmd0
  let cmd2 := if last then (cmd1 ||| 1) ||| (((7 - payload.length) &&& 0x7) <<< 1)
    else cmd1
  { id := COBID FC_SDO_RX node, extended := false, rtr := false, len := 8,
    data := overwrite ((List.replicate 8 0).set 0 cmd2) 1 payload }

/-- The per-iteration data of `SDOClient.Download`'s segmented loop: the
loop slices up to 7 bytes, computes the `last` flag, builds a segment from
(payload, toggle, last), then advances by the segment length and flips the
toggle.  `downloadSegTrace` returns the (payload, toggle, last) triples in
order. -/
def downloadSegTrace (data : List Nat) (toggle : Nat) :
    List (List Nat × Nat × Bool) :=
  if h : data = [] then []
  else
    let segLen := if data.length < 7 then data.length else 7
    (data.take segLen, toggle, decide (segLen = data.length)) ::
      downloadSegTrace (data.drop segLen) (toggle ^^^ 1)
termination_by data.length
decreasing_by
  simp only [List.length_drop]
  have h1 : 0 < data.length := List.length_pos.mpr h
  split <;> omega

/-- The segment frames sent by the segmented download loop, in order. -/
def downloadSegmentFrames (node : Nat) (data : List Nat) : List Frame :=
  (downloadSegTrace data 0).map fun e => buildSDODownloadSegment node e.1 e.2.1 e.2.2

/-- `parseSDOAbort`: `some (node, index, subindex, code)` when the frame is
a server→client abort (SCS=4, SDO-TX id, length 8), else `none`. -/
def parseSDOAbort (f : Frame) : Option (Nat × Nat × Nat × Nat) :=
  match ParseCOBID f.id with
  | .error _ => none
  | .ok (fc, node) =>
    if fc ≠ FC_SDO_TX ∨ f.len ≠ 8 then none
    else if (f.data.getD 0 0 >>> 5) &&& 0x7 ≠ sdoSCSAbort then none
    else some (node, getU16 (f.data.getD 1 0) (f.data.getD 2 0), f.data.getD 3 0,
      getU32 (f.data.getD 4 0) (f.data.getD 5 0) (f.data.getD 6 0) (f.data.getD 7 0))

/-- `sdoAbortText`: the built-in CiA 301 abort-code descriptions. -/
def sdoAbortText : Nat → Option String
  | 0x05030000 => some ("toggle bit not alternated")
  | 0x05040000 => some ("SDO protocol timeout")
  | 0x05040001 => some ("command specifier invalid or unknown")
  | 0x06010000 => some ("unsupported access to object")
  | 0x06010001 => some ("attempt to read a write-only object")
  | 0x06010002 => some ("attempt to write a read-only object")
  | 0x06020000 => some ("object does not exist")
  | 0x06040041 => some ("object cannot be mapped to PDO")
  | 0x06040042 => some ("PDO length exceeded")
  | 0x06040043 => some ("general parameter incompatibility")
  | 0x06040047 => some ("internal incompatibility in device")
  | 0x06060000 => some ("hardware error")
  | 0x06070010 => some ("data type does not match (length)")
  | 0x06070012 => some ("data type does not match (length too high)")
  | 0x06070013 => some ("data type does not match (length too low)")
  | 0x06090011 => some ("sub-index does not exist")
  | 0x06090030 => some ("value range exceeded (min)")
  | 0x06090031 => some ("value range exceeded (max)")
  | 0x06090036 => some ("invalid value for parameter")
  | 0x08000000 => some ("general error")
  | 0x08000020 => some ("data cannot be transferred/stored")
  | 0x08000021 => some ("local control")
  | 0x08000022 => some ("device state")
  | 0x08000023 => some ("OD dynamic generation fails")
  | _ => none

/-- The subscription filter used by the expedited `Download` path: SDO-TX
frame from the target node of length 8; aborts and download-initiate
responses are delivered only when index/subindex match. -/
def downloadExpeditedFilter (node index subindex : Nat) (f : Frame) : Bool :=
  match ParseCOBID f.id with
  | .error _ => false
  | .ok (fc, n) =>
    if fc ≠ FC_SDO_TX ∨ n ≠ node ∨ f.len ≠ 8 then false
    else
      let cmd := (f.data.getD 0 0 >>> 5) &&& 0x7
      if cmd = sdoSCSAbort then
        decide (getU16 (f.data.getD 1 0) (f.data.getD 2 0) = index ∧
          f.data.getD 3 0 = subindex)
      else if cmd ≠ sdoSCSDownloadInitiate then false
      else
        decide (getU16 (f.data.getD 1 0) (f.data.getD 2 0) = index ∧
          f.data.getD 3 0 = subindex)

/-- `sdoServerFilterForNode`: server→client filter for a node, delegating to
a phase-specific matcher. -/
def sdoServerFilterForNode (node : Nat) (m : Frame → Bool) (f : Frame) : Bool :=
  match ParseCOBID f.id with
  | .error _ => false
  | .ok (fc, n) =>
    if fc ≠ FC_SDO_TX ∨ n ≠ node ∨ f.len ≠ 8 then false else m f

/-- `sdoMatchAbortFor`: abort frames for a given index/subindex. -/
def sdoMatchAbortFor (index subindex : Nat) (f : Frame) : Bool :=
  if sdoCmd f ≠ sdoSCSAbort then false
  else
    decide (getU16 (f.data.getD 1 0) (f.data.getD 2 0) = index ∧
      f.data.getD 3 0 = subindex)

/-- `sdoMatchUploadInitiate`: any SCS=2 frame. -/
def sdoMatchUploadInitiate (f : Frame) : Bool :=
  decide (sdoCmd f = sdoSCSUploadInitiate)

/-- The subscription filter used by the `Upload` initiate wait: SDO-TX from
the node, length 8; aborts only for the requested index/subindex, else any
upload-initiate response. -/
def uploadInitFilter (node index subindex : Nat) : Frame → Bool :=
  sdoServerFilterForNode node (fun f =>
    if sdoCmd f = sdoSCSAbort then sdoMatchAbortFor index subindex f
    else sdoMatchUploadInitiate f)

/-- `Download`'s handling of the response frame delivered by the expedited
subscription (source lines: `if _, ab, ok := parseSDOAbort(rsp); ok
{ return *ab }; return nil`). -/
def downloadHandleResponse (rsp : Frame) : Except CoErr Unit :=
  match parseSDOAbort rsp with
  | some (_, idx, sub, code) => .error (.abort idx sub code)
  | none => .ok ()

/-- `Upload`'s abort check on the first response: the abort is returned only
when its index/subindex equal the requested ones. -/
def uploadFirstAbortCheck (index subindex : Nat) (first : Frame) : Option CoErr :=
  match parseSDOAbort first with
  | some (_, idx, sub, code) =>
    if idx = index ∧ sub = subindex then some (.abort idx sub code) else none
  | none => none

/-- `parseSDOUploadSegmentData`: payload bytes (`Data[1:end]`) and the `c`
(last) flag of an upload segment response. -/
def parseSDOUploadSegmentData (f : Frame) : Except CoErr (List Nat × Bool) :=
  let cmd := f.data.getD 0 0
  let cFlag : Bool := cmd &&& 0x1 != 0
  let n := (cmd >>> 1) &&& 0x7
  let stop := if cFlag then 8 - n else 8
  if stop < 1 ∨ stop > 8 then .error .invalidSegmentLength
  else .ok ((f.data.take stop).drop 1, cFlag)

/-- The size declared by a segmented upload initiate response: the 32-bit
little-endian total from bytes 4..7 when the `s` bit (bit 2) is set, else
`-1` (`total := -1; if s { total = Uint32(...) }` in the source). -/
def uploadInitTotal (first : Frame) : Int :=
  if first.data.getD 0 0 &&& (1 <<< 2) ≠ 0 then
    (getU32 (first.data.getD 4 0) (first.data.getD 5 0) (first.data.getD 6 0)
      (first.data.getD 7 0) : Int)
  else -1

/-- The segmented phase of `SDOClient.Upload`, as a function of the list of
segment responses delivered in order (an empty remainder stands for a wait
that fails: closed queue or timeout).  Mirrors the source loop: abort check,
`parseSDOUploadSegmentData`, append, toggle flip, and on the last segment
the size reconciliation `if total >= 0 && len(out) != total { fail }`. -/
def uploadSegLoop (total : Int) (out : List Nat) (toggle : Nat) :
    List Frame → Except CoErr (List Nat)
  | [] => .error .errClosed
  | rsp :: rest =>
    match parseSDOAbort rsp with
    | some (_, idx, sub, code) => .error (.abort idx sub code)
    | none =>
      match parseSDOUploadSegmentData rsp with
      | .error e => .error e
      | .ok (segData, last) =>
        let out2 := out ++ segData
        if last then
          if total ≥ 0 ∧ (out2.length : Int) ≠ total then
            .error (.sizeMismatch out2.length total)
          else .ok out2
        else uploadSegLoop total out2 (toggle ^^^ 1) rest

/-- Discrete model of what the per-call subscription channel does during one
wait: it delivers a frame after `t` time units, closes after `t` time units,
or stays silent forever. -/
inductive ChanBehavior where
  | yields (f : Frame) (t : Nat)
  | closes (t : Nat)
  | silent
deriving DecidableEq, Repr

/-- `waitWithTimeout` over the channel model.  With `timeout > 0` the Go
code selects between the channel and `time.After(timeout)`, so it always
returns: the frame if it arrives in time, else `canbus.ErrClosed` (also for
a closed channel).  With `timeout = 0` there is no timer: the receive blocks
until the channel yields or closes — `none` models blocking forever. -/
def waitWithTimeout (beh : ChanBehavior) (timeout : Nat) :
    Option (Except CoErr Frame) :=
  if timeout > 0 then
    some (match beh with
      | .yields f t => if t ≤ timeout then .ok f else .error .errClosed
      | .closes _ => .error .errClosed
      | .silent => .error .errClosed)
  else
    match beh with
    | .yields f _ => some (.ok f)
    | .closes _ => some (.error .errClosed)
    | .silent => none

/-- Actions of one subscribe-then-wait step of the SDO client. -/
inductive SDOAction where
  | subscribe
  | cancel
deriving DecidableEq, Repr

/-- One subscribe-then-wait step: subscribe, wait via `waitWithTimeout`,
and cancel the per-call subscription on every path that returns (the client
uses `defer cancel()` or an explicit `cancelSeg()` after the wait). -/
def sdoWaitStep (timeout : Nat) (beh : ChanBehavior) :
    List SDOAction × Option (Except CoErr Frame) :=
  match waitWithTimeout beh timeout with
  | some r => ([.subscribe, .cancel], some r)
  | none => ([.subscribe], none)

end Canopen

namespace Canbus

/-- State of a `loopEndpoint` as relevant to `LoopbackBus.Open` and
`loopEndpoint.Close`: registration with the bus, the `dead` flag, and
whether each of its two Go channels has been closed. -/
structure LoopEndpoint where
  registered : Bool
  dead : Bool
  closedChClosed : Bool
  chClosed : Bool
deriving DecidableEq, Repr

/-- Result of a Go operation that can panic. -/
inductive PanicOr (a : Type) where
  | panicked (msg : String)
  | ok (v : a)
deriving DecidableEq, Repr

/-- `LoopbackBus.Open`: when the bus is already closed, the endpoint is
returned unregistered, with its `closed` channel closed and `dead` still
false; otherwise it is registered with all channels open. -/
def LoopbackBus.Open (busClosed : Bool) : LoopEndpoint :=
  if busClosed then
    { registered := false, dead := false, closedChClosed := true, chClosed := false }
  else
    { registered := true, dead := false, closedChClosed := false, chClosed := false }

/-- `loopEndpoint.closeNoLock`: no-op when `dead`; otherwise sets `dead`,
closes `e.closed` then `e.ch`, and deregisters.  Closing an already-closed
Go channel panics. -/
def closeNoLock (e : LoopEndpoint) : PanicOr LoopEndpoint :=
  if e.dead then .ok e
  else if e.closedChClosed then .panicked ("close of closed channel")
  else if e.chClosed then .panicked ("close of closed channel")
  else .ok { registered := false, dead := true, closedChClosed := true, chClosed := true }

/-- `loopEndpoint.Close` calls `closeNoLock` under the bus lock. -/
def loopEndpointClose (e : LoopEndpoint) : PanicOr LoopEndpoint := closeNoLock e

end Canbus

instance {e a : Type} [DecidableEq e] [DecidableEq a] : DecidableEq (Except e a)
  | .ok x, .ok y =>
    if h : x = y then .isTrue (by rw [h]) else .isFalse (fun hc => h (by injection hc))
  | .ok _, .error _ => .isFalse (fun hc => Except.noConfusion hc)
  | .error _, .ok _ => .isFalse (fun hc => Except.noConfusion hc)
  | .error x, .error y =>
    if h : x = y then .isTrue (by rw [h]) else .isFalse (fun hc => h (by injection hc))

namespace Canbus

theorem getU32_putU32 (v : Nat) :
    getU32 (v % 256) (v / 256 % 256) (v / 65536 % 256) (v / 16777216 % 256)
      = v % 4294967296 := by
  unfold getU32; omega

theorem or_hi31 (a : Nat) (h : a < 2147483648) : a ||| 2147483648 = 2147483648 + a := by
  have h' : a < 2 ^ 31 := by rw [show (2:Nat) ^ 31 = 2147483648 by norm_num]; omega
  have e := Nat.mul_add_lt_is_or h' 1
  norm_num at e
  rw [Nat.lor_comm, ← e]

theorem or_hi30 (a : Nat) (h : a < 1073741824) : a ||| 1073741824 = 1073741824 + a := by
  have h' : a < 2 ^ 30 := by rw [show (2:Nat) ^ 30 = 1073741824 by norm_num]; omega
  have e := Nat.mul_add_lt_is_or h' 1
  norm_num at e
  rw [Nat.lor_comm, ← e]

theorem or_hi_both (a : Nat) (h : a < 1073741824) :
    a ||| 2147483648 ||| 1073741824 = 3221225472 + a := by
  have h30 : a < 2 ^ 30 := by rw [show (2:Nat) ^ 30 = 1073741824 by norm_num]; omega
  rw [or_hi31 a (by omega)]
  rw [show (2147483648:Nat) + a = 2 ^ 30 * 2 + a by norm_num]
  rw [Nat.mul_add_lt_is_or h30 2]
  rw [Nat.lor_assoc, or_hi30 a h]
  have e2 := Nat.mul_add_lt_is_or
    (show 1073741824 + a < 2 ^ 31 from by
      rw [show (2:Nat) ^ 31 = 2147483648 by norm_num]; omega) 1
  rw [show (2:Nat) ^ 30 * 2 = 2 ^ 31 * 1 by norm_num, ← e2]
  omega

theorem and_pow_via_divmod (v i : Nat) :
    v &&& 2 ^ i = if v / 2 ^ i % 2 = 1 then 2 ^ i else 0 := by
  rw [Nat.and_two_pow, Nat.testBit_to_div_mod]
  split <;> simp_all

theorem and_hi31 (v : Nat) :
    v &&& 2147483648 = if v / 2147483648 % 2 = 1 then 2147483648 else 0 := by
  rw [show (2147483648:Nat) = 2 ^ 31 by norm_num, and_pow_via_divmod]

theorem and_hi30 (v : Nat) :
    v &&& 1073741824 = if v / 1073741824 % 2 = 1 then 1073741824 else 0 := by
  rw [show (1073741824:Nat) = 2 ^ 30 by norm_num, and_pow_via_divmod]

theorem and_mask29 (v : Nat) : v &&& 536870911 = v % 536870912 := by
  rw [show (536870911:Nat) = 2 ^ 29 - 1 by norm_num, Nat.and_pow_two_sub_one_eq_mod]

theorem and_mask11 (v : Nat) : v &&& 2047 = v % 2048 := by
  rw [show (2047:Nat) = 2 ^ 11 - 1 by norm_num, Nat.and_pow_two_sub_one_eq_mod]

theorem marshal_ok (f : Frame) (hv : f.Validate = none) :
    f.MarshalBinary = .ok (putU32
      (if f.rtr then (if f.extended then f.id ||| canEffFlag else f.id) ||| canRtrFlag
       else (if f.extended then f.id ||| canEffFlag else f.id))
      ++ [f.len] ++ [0, 0, 0] ++ f.data) := by
  unfold Frame.MarshalBinary
  rw [hv]

/-- C6: for every frame that passes `Validate` (`Len ≤ 8`; id within the
11- or 29-bit bound according to the extended flag), `MarshalBinary`
succeeds with a 16-byte buffer and `UnmarshalBinary` of that buffer yields
the original frame, preserving the `Extended` and `RTR` flags. -/
theorem frame_marshal_roundtrip (f : Frame) (hdata : f.data.length = 8)
    (hv : f.Validate = none) :
    ∃ buf, f.MarshalBinary = .ok buf ∧ buf.length = 16 ∧
      Frame.UnmarshalBinary buf = .ok f := by
  obtain ⟨id, ext, rtr, len, data⟩ := f
  have h8 : ¬ (8 < len) := by
    intro h
    simp [Frame.Validate, h] at hv
  have hid : id ≤ (if ext then maxExtID else maxStdID) := by
    by_contra h
    rw [Nat.not_le] at h
    cases ext <;> simp [maxExtID, maxStdID] at h <;>
      simp [Frame.Validate, h8, h, maxExtID, maxStdID] at hv
  simp only at hdata
  rcases data with _ | ⟨d0, _ | ⟨d1, _ | ⟨d2, _ | ⟨d3, _ | ⟨d4, _ | ⟨d5, _ | ⟨d6, _ | ⟨d7, _ | ⟨d8, rest⟩⟩⟩⟩⟩⟩⟩⟩⟩ <;>
    simp at hdata
  refine ⟨_, marshal_ok _ hv, ?_, ?_⟩
  · cases ext <;> cases rtr <;> simp [putU32]
  · cases ext <;> cases rtr <;>
      simp [maxStdID, maxExtID] at hid <;>
      simp only [Bool.false_eq_true, if_false, if_true, putU32, List.cons_append,
        List.nil_append] <;>
      simp only [Frame.UnmarshalBinary, getU32_putU32] <;>
      simp only [Bool.false_eq_true, if_false, if_true, canEffFlag, canRtrFlag,
        canEffMask, canStdMask]
    · -- extended = false, rtr = false
      rw [Nat.mod_eq_of_lt (show id < 4294967296 by omega)]
      rw [and_hi31, and_hi30,
        if_neg (show ¬ id / 2147483648 % 2 = 1 by omega),
        if_neg (show ¬ id / 1073741824 % 2 = 1 by omega), and_mask11]
      simp only [bne_self_eq_false, Bool.false_eq_true, if_false]
      rw [Nat.mod_eq_of_lt (show id < 2048 by omega)]
      rw [hv]
    · -- extended = false, rtr = true
      rw [or_hi30 id (by omega)]
      rw [Nat.mod_eq_of_lt (show 1073741824 + id < 4294967296 by omega)]
      rw [and_hi31, and_hi30,
        if_neg (show ¬ (1073741824 + id) / 2147483648 % 2 = 1 by omega),
        if_pos (show (1073741824 + id) / 1073741824 % 2 = 1 by omega), and_mask11]
      simp only [bne_self_eq_false, Bool.false_eq_true, if_false,
        show ((1073741824:Nat) != 0) = true by norm_num, if_true]
      rw [show (1073741824 + id) % 2048 = id by omega]
      rw [hv]
    · -- extended = true, rtr = false
      rw [or_hi31 id (by omega)]
      rw [Nat.mod_eq_of_lt (show 2147483648 + id < 4294967296 by omega)]
      rw [and_hi31, and_hi30,
        if_pos (show (2147483648 + id) / 2147483648 % 2 = 1 by omega),
        if_neg (show ¬ (2147483648 + id) / 1073741824 % 2 = 1 by omega)]
      simp only [bne_self_eq_false, Bool.false_eq_true, if_false,
        show ((2147483648:Nat) != 0) = true by norm_num, if_true]
      rw [and_mask29]
      rw [show (2147483648 + id) % 536870912 = id by omega]
      rw [hv]
    · -- extended = true, rtr = true
      rw [or_hi_both id (by omega)]
      rw [Nat.mod_eq_of_lt (show 3221225472 + id < 4294967296 by omega)]
      rw [and_hi31, and_hi30,
        if_pos (show (3221225472 + id) / 2147483648 % 2 = 1 by omega),
        if_pos (show (3221225472 + id) / 1073741824 % 2 = 1 by omega)]
      simp only [show ((2147483648:Nat) != 0) = true by norm_num,
        show ((1073741824:Nat) != 0) = true by norm_num, if_true]
      rw [and_mask29]
      rw [show (3221225472 + id) % 536870912 = id by omega]
      rw [hv]

/-- Witness for C6 at a concrete frame. -/
theorem frame_marshal_roundtrip_witness :
    ∃ buf, Frame.MarshalBinary ⟨0x123, false, true, 3, [1, 2, 3, 0, 0, 0, 0, 0]⟩ = .ok buf ∧
      buf.length = 16 ∧
      Frame.UnmarshalBinary buf = .ok ⟨0x123, false, true, 3, [1, 2, 3, 0, 0, 0, 0, 0]⟩ :=
  frame_marshal_roundtrip ⟨0x123, false, true, 3, [1, 2, 3, 0, 0, 0, 0, 0]⟩
    (by decide) (by decide)

end Canbus

namespace Canopen

/-- C7: for every function code among TPDO1..4, RPDO1..4, SDO_RX, SDO_TX,
NMT_ERRCTRL and EMCY and every node id 1..127, `ParseCOBID (COBID fc node)`
returns exactly `(fc, node)`. -/
theorem cobid_parse_roundtrip : ∀ fc ∈ roundTripFCs, ∀ node : Nat,
    node < 128 → 1 ≤ node → ParseCOBID (COBID fc node) = .ok (fc, node) := by
  decide

/-- Witness for C7: TPDO1 at node 1 gives COB-ID 0x181 and parses back. -/
theorem cobid_parse_roundtrip_witness :
    ParseCOBID (COBID FC_TPDO1 1) = .ok (FC_TPDO1, 1) :=
  cobid_parse_roundtrip FC_TPDO1 (by decide) 1 (by decide) (by decide)

/-- C8: `ParseCOBID` rejects every id above 0x7FF, maps id 0x080 to
(SYNC, 0) exactly, and maps every id in 0x081..0x0FF to (EMCY, id - 0x080). -/
theorem parse_cobid_fixed_and_ranges :
    (∀ id : Nat, id > 0x7FF → ParseCOBID id = .error (.invalidCOBID id)) ∧
    ParseCOBID 0x080 = .ok (FC_SYNC, 0) ∧
    (∀ id : Nat, 0x081 ≤ id → id ≤ 0x0FF → ParseCOBID id = .ok (FC_EMCY, id - 0x080)) := by
  refine ⟨?_, by decide, ?_⟩
  · intro id h
    simp [ParseCOBID, h]
  · have hd : ∀ id : Nat, id < 0x100 → 0x081 ≤ id →
        ParseCOBID id = .ok (FC_EMCY, id - 0x080) := by decide
    intro id h1 h2
    exact hd id (by omega) h1

/-- Witness for C8 at ids 0x800 and 0x085. -/
theorem parse_cobid_fixed_and_ranges_witness :
    ParseCOBID 0x800 = .error (.invalidCOBID 0x800) ∧
    ParseCOBID 0x085 = .ok (FC_EMCY, 5) :=
  ⟨parse_cobid_fixed_and_ranges.1 0x800 (by decide),
   parse_cobid_fixed_and_ranges.2.2 0x085 (by decide) (by decide)⟩

end Canopen

namespace Canopen

open Canbus

theorem parse_sdo_rx_id (node : Nat) (h1 : 1 ≤ node) (h2 : node ≤ 127) :
    ParseCOBID (0x600 + node) = .ok (FC_SDO_RX, node) := by
  have hd : ∀ m : Nat, m < 128 → 1 ≤ m → ParseCOBID (0x600 + m) = .ok (FC_SDO_RX, m) := by
    decide
  exact hd node (by omega) h1

theorem cobid_sdo_rx (node : Nat) (h2 : node ≤ 127) :
    COBID FC_SDO_RX node = 0x600 + node := by
  simp [COBID, FC_SDO_RX, FC_NMT, FC_TIME]
  omega

/-- C1: the expedited SDO download builders encode the command byte per the
selected mode (spec-pure `0x2C + (4 - len)`, i.e. 0x2C/0x2D/0x2E/0x2F for
len 4/3/2/1; classic `0x23 + (4 - len)*4`, i.e. 0x23/0x27/0x2B/0x2F), put
the index little-endian in bytes 1..2, the subindex in byte 3 and the
payload in bytes 4.., with frame id 0x600 + node and Len = 8. -/
theorem sdo_expedited_download_encoding
    (node index subindex : Nat) (data : List Nat)
    (hn1 : 1 ≤ node) (hn2 : node ≤ 127)
    (hd1 : 1 ≤ data.length) (hd4 : data.length ≤ 4) :
    sdoExpeditedDownload node index subindex data = .ok
      { id := 0x600 + node, extended := false, rtr := false, len := 8,
        data := (0x2C + (4 - data.length)) :: index % 256 :: index / 256 % 256 ::
          subindex :: (data ++ List.replicate (4 - data.length) 0) } ∧
    sdoExpeditedDownloadClassic node index subindex data = .ok
      { id := 0x600 + node, extended := false, rtr := false, len := 8,
        data := (0x23 + (4 - data.length) * 4) :: index % 256 :: index / 256 % 256 ::
          subindex :: (data ++ List.replicate (4 - data.length) 0) } := by
  have hnv : nodeValidate node = none := by
    simp [nodeValidate]; omega
  have hcob : COBID FC_SDO_RX node = 0x600 + node := cobid_sdo_rx node hn2
  rcases data with _ | ⟨a, _ | ⟨b, _ | ⟨c, _ | ⟨d, _ | ⟨e, rest⟩⟩⟩⟩⟩ <;>
    simp at hd1 hd4 <;>
    constructor <;>
    simp [sdoExpeditedDownload, sdoExpeditedDownloadClassic, hnv, hcob, overwrite,
      putU16, sdoCCSDownloadInitiate, List.replicate] <;>
    decide

/-- Witness for C1 at node 0x23, index 0x2000, subindex 1, payload
DE AD BE EF. -/
theorem sdo_expedited_download_encoding_witness :
    sdoExpeditedDownload 0x23 0x2000 0x01 [0xDE, 0xAD, 0xBE, 0xEF] = .ok
      { id := 0x600 + 0x23, extended := false, rtr := false, len := 8,
        data := (0x2C + (4 - [0xDE, 0xAD, 0xBE, 0xEF].length)) :: 0x2000 % 256 ::
          0x2000 / 256 % 256 :: 0x01 ::
          ([0xDE, 0xAD, 0xBE, 0xEF] ++
            List.replicate (4 - [0xDE, 0xAD, 0xBE, 0xEF].length) 0) } ∧
    sdoExpeditedDownloadClassic 0x23 0x2000 0x01 [0xDE, 0xAD, 0xBE, 0xEF] = .ok
      { id := 0x600 + 0x23, extended := false, rtr := false, len := 8,
        data := (0x23 + (4 - [0xDE, 0xAD, 0xBE, 0xEF].length) * 4) :: 0x2000 % 256 ::
          0x2000 / 256 % 256 :: 0x01 ::
          ([0xDE, 0xAD, 0xBE, 0xEF] ++
            List.replicate (4 - [0xDE, 0xAD, 0xBE, 0xEF].length) 0) } :=
  sdo_expedited_download_encoding 0x23 0x2000 0x01 [0xDE, 0xAD, 0xBE, 0xEF]
    (by decide) (by decide) (by decide) (by decide)

/-- C9: the spec-pure expedited builder accepts an empty payload and
produces command byte 0x2C (`n = 4` truncated to 2 bits is 0), the same
byte as a 4-byte download, so a receiver decodes 4 data bytes; the classic
builder rejects empty payloads. -/
theorem sdo_expedited_empty_payload (node index subindex : Nat)
    (hn1 : 1 ≤ node) (hn2 : node ≤ 127) (hi : index < 65536) :
    ∃ f, sdoExpeditedDownload node index subindex [] = .ok f ∧
      f.data.getD 0 0 = 0x2C ∧
      (∀ a b c d : Nat, ∃ g,
        sdoExpeditedDownload node index subindex [a, b, c, d] = .ok g ∧
        g.data.getD 0 0 = 0x2C) ∧
      parseSDOExpeditedDownload f = .ok (node, index, subindex, [0, 0, 0, 0]) ∧
      sdoExpeditedDownloadClassic node index subindex [] =
        .error (.classicExpeditedLen 0) := by
  have hnv : nodeValidate node = none := by
    simp [nodeValidate]; omega
  refine ⟨⟨COBID FC_SDO_RX node, false, false, 8,
      [0x2C, index % 256, index / 256 % 256, subindex, 0, 0, 0, 0]⟩, ?_, ?_, ?_, ?_, ?_⟩
  · simp [sdoExpeditedDownload, hnv, overwrite, putU16, sdoCCSDownloadInitiate]
    decide
  · simp
  · intro a b c d
    refine ⟨⟨COBID FC_SDO_RX node, false, false, 8,
        [0x2C, index % 256, index / 256 % 256, subindex, a, b, c, d]⟩, ?_, ?_⟩
    · simp [sdoExpeditedDownload, hnv, overwrite, putU16, sdoCCSDownloadInitiate]
    · simp
  · simp only [parseSDOExpeditedDownload, cobid_sdo_rx node hn2,
      parse_sdo_rx_id node hn1 hn2]
    norm_num [getU16, FC_SDO_RX]
    simp [sdoCCSDownloadInitiate]
    rw [show (44:Nat) &&& 3 = 0 from rfl]
    simp
    omega
  · simp [sdoExpeditedDownloadClassic, hnv]

/-- Witness for C9 at node 1, index 0x2000, subindex 1. -/
theorem sdo_expedited_empty_payload_witness :
    ∃ f, sdoExpeditedDownload 1 0x2000 0x01 [] = .ok f ∧
      f.data.getD 0 0 = 0x2C ∧
      (∀ a b c d : Nat, ∃ g,
        sdoExpeditedDownload 1 0x2000 0x01 [a, b, c, d] = .ok g ∧
        g.data.getD 0 0 = 0x2C) ∧
      parseSDOExpeditedDownload f = .ok (1, 0x2000, 0x01, [0, 0, 0, 0]) ∧
      sdoExpeditedDownloadClassic 1 0x2000 0x01 [] =
        .error (.classicExpeditedLen 0) :=
  sdo_expedited_empty_payload 1 0x2000 0x01 (by decide) (by decide) (by decide)

end Canopen

/-- C10: an endpoint obtained from `LoopbackBus.Open` after the bus closed
is unregistered, its `closed` channel is already closed while `dead` is
still false, and a subsequent `Close` panics (close of closed channel). -/
theorem loopback_open_after_close_panics :
    (Canbus.LoopbackBus.Open true).registered = false ∧
    (Canbus.LoopbackBus.Open true).dead = false ∧
    (Canbus.LoopbackBus.Open true).closedChClosed = true ∧
    Canbus.loopEndpointClose (Canbus.LoopbackBus.Open true) =
      .panicked ("close of closed channel") := by
  decide

namespace Canopen

open Canbus

/-- C3: a server frame with SCS=4 passing the per-call subscription filter
of `Download` (or the abort side of the `Upload` initiate filter) makes the
call return an abort error carrying that index, subindex and the 32-bit
little-endian code from bytes 4..7; code 0x06020000 renders as
"object does not exist". -/
theorem sdo_abort_surfaced (node index subindex : Nat) (f : Frame) :
    (downloadExpeditedFilter node index subindex f = true → sdoCmd f = 4 →
      downloadHandleResponse f = .error (.abort index subindex
        (getU32 (f.data.getD 4 0) (f.data.getD 5 0) (f.data.getD 6 0) (f.data.getD 7 0)))) ∧
    (uploadInitFilter node index subindex f = true → sdoCmd f = 4 →
      uploadFirstAbortCheck index subindex f = some (.abort index subindex
        (getU32 (f.data.getD 4 0) (f.data.getD 5 0) (f.data.getD 6 0) (f.data.getD 7 0)))) ∧
    sdoAbortText 0x06020000 = some ("object does not exist") := by
  refine ⟨?_, ?_, rfl⟩
  · intro hf hcmd
    have hc4 : (f.data.getD 0 0 >>> 5) &&& 0x7 = sdoSCSAbort := hcmd
    unfold downloadExpeditedFilter at hf
    cases hp : ParseCOBID f.id with
    | error e => rw [hp] at hf; simp at hf
    | ok p =>
      obtain ⟨fc, n⟩ := p
      rw [hp] at hf
      dsimp only at hf
      by_cases h1 : fc ≠ FC_SDO_TX ∨ n ≠ node ∨ f.len ≠ 8
      · rw [if_pos h1] at hf; simp at hf
      · rw [if_neg h1] at hf
        push_neg at h1
        obtain ⟨hfc, hnode, hlen⟩ := h1
        rw [if_pos hc4] at hf
        rw [decide_eq_true_eq] at hf
        obtain ⟨hidx, hsub⟩ := hf
        unfold downloadHandleResponse parseSDOAbort
        rw [hp]
        dsimp only
        rw [if_neg (by simp [hfc, hlen]),
          if_neg (by simp only [ne_eq, not_not]; exact hc4)]
        dsimp only
        rw [hidx, hsub]
  · intro hf hcmd
    have hc4 : (f.data.getD 0 0 >>> 5) &&& 0x7 = sdoSCSAbort := hcmd
    unfold uploadInitFilter sdoServerFilterForNode at hf
    cases hp : ParseCOBID f.id with
    | error e => rw [hp] at hf; simp at hf
    | ok p =>
      obtain ⟨fc, n⟩ := p
      rw [hp] at hf
      dsimp only at hf
      by_cases h1 : fc ≠ FC_SDO_TX ∨ n ≠ node ∨ f.len ≠ 8
      · rw [if_pos h1] at hf; simp at hf
      · rw [if_neg h1] at hf
        simp only [if_pos (show sdoCmd f = sdoSCSAbort from hcmd)] at hf
        unfold sdoMatchAbortFor at hf
        rw [if_neg (show ¬ sdoCmd f ≠ sdoSCSAbort from by simp [hcmd, sdoSCSAbort])] at hf
        rw [decide_eq_true_eq] at hf
        obtain ⟨hidx, hsub⟩ := hf
        push_neg at h1
        obtain ⟨hfc, hnode, hlen⟩ := h1
        unfold uploadFirstAbortCheck parseSDOAbort
        rw [hp]
        dsimp only
        rw [if_neg (by simp [hfc, hlen]),
          if_neg (by simp only [ne_eq, not_not]; exact hc4)]
        dsimp only
        rw [if_pos ⟨hidx, hsub⟩, hidx, hsub]

/-- Witness for C3: an abort frame from node 1 for 0x2000:01 with code
0x06020000. -/
theorem sdo_abort_surfaced_witness :
    downloadHandleResponse
        ⟨0x581, false, false, 8, [0x80, 0x00, 0x20, 0x01, 0x00, 0x00, 0x02, 0x06]⟩ =
      .error (.abort 0x2000 0x01 0x06020000) :=
  (sdo_abort_surfaced 1 0x2000 0x01
    ⟨0x581, false, false, 8, [0x80, 0x00, 0x20, 0x01, 0x00, 0x00, 0x02, 0x06]⟩).1
    (by decide) (by decide)

/-- C4: with a positive timeout, a wait step in which no matching frame
arrives in time returns `ErrClosed` and the per-call subscription is
cancelled; a closed subscription queue likewise yields `ErrClosed`; with
timeout 0 and a silent channel the step blocks forever (waits
indefinitely). -/
theorem sdo_wait_timeout_closed :
    (∀ (timeout : Nat) (beh : ChanBehavior), 0 < timeout →
      (beh = .silent ∨ ∀ g t, beh = .yields g t → timeout < t) →
      sdoWaitStep timeout beh = ([.subscribe, .cancel], some (.error .errClosed))) ∧
    (∀ (timeout t : Nat), sdoWaitStep timeout (.closes t) =
      ([.subscribe, .cancel], some (.error .errClosed))) ∧
    sdoWaitStep 0 .silent = ([.subscribe], none) := by
  refine ⟨?_, ?_, rfl⟩
  · intro timeout beh ht hbeh
    unfold sdoWaitStep waitWithTimeout
    rw [if_pos ht]
    cases beh with
    | yields g t =>
      rcases hbeh with h | h
      · exact absurd h (by simp)
      · have := h g t rfl
        dsimp only
        rw [if_neg (by omega)]
    | closes t => rfl
    | silent => rfl
  · intro timeout t
    unfold sdoWaitStep waitWithTimeout
    by_cases h : 0 < timeout
    · rw [if_pos h]
    · rw [if_neg h]

/-- Witness for C4: timeout 5 with a silent channel. -/
theorem sdo_wait_timeout_closed_witness :
    sdoWaitStep 5 .silent = ([.subscribe, .cancel], some (.error .errClosed)) :=
  sdo_wait_timeout_closed.1 5 .silent (by decide) (Or.inl rfl)

/-- C5: at the final segment (`c=1`) of a segmented upload, if the initiate
response declared a size and the concatenated length differs, `Upload`
fails with a size-mismatch error; if no size was declared (total = -1) it
returns the concatenated data whatever its length. -/
theorem sdo_upload_size_reconciliation
    (first rsp : Frame) (rest : List Frame) (out segData : List Nat)
    (toggle : Nat)
    (hnoab : parseSDOAbort rsp = none)
    (hparse : parseSDOUploadSegmentData rsp = .ok (segData, true)) :
    (∀ sz : Nat, uploadInitTotal first = (sz : Int) →
      (out ++ segData).length ≠ sz →
      uploadSegLoop (uploadInitTotal first) out toggle (rsp :: rest)
        = .error (.sizeMismatch (out ++ segData).length (sz : Int))) ∧
    (uploadInitTotal first = -1 →
      uploadSegLoop (uploadInitTotal first) out toggle (rsp :: rest)
        = .ok (out ++ segData)) := by
  constructor
  · intro sz htot hne
    rw [htot]
    unfold uploadSegLoop
    rw [hnoab, hparse]
    dsimp only
    rw [if_pos rfl]
    rw [if_pos ⟨by positivity, by exact_mod_cast hne⟩]
  · intro htot
    rw [htot]
    unfold uploadSegLoop
    rw [hnoab, hparse]
    dsimp only
    rw [if_pos rfl]
    rw [if_neg (by simp)]

/-- Witness for C5: declared size 12, received 5 bytes in one final
segment. -/
theorem sdo_upload_size_reconciliation_witness :
    uploadSegLoop
        (uploadInitTotal ⟨0x581, false, false, 8, [0x44, 0x00, 0x30, 0x02, 12, 0, 0, 0]⟩)
        [] 0 [⟨0x581, false, false, 8, [0x05, 1, 2, 3, 4, 5, 9, 9]⟩]
      = .error (.sizeMismatch 5 12) :=
  (sdo_upload_size_reconciliation
    ⟨0x581, false, false, 8, [0x44, 0x00, 0x30, 0x02, 12, 0, 0, 0]⟩
    ⟨0x581, false, false, 8, [0x05, 1, 2, 3, 4, 5, 9, 9]⟩
    [] [] [1, 2, 3, 4, 5] 0 (by decide) (by decide)).1
    12 (by decide) (by decide)

end Canopen

namespace Canopen

open Canbus

theorem overwrite_getD_lt (src : List Nat) : ∀ (l : List Nat) (off i : Nat), i < off →
    (overwrite l off src).getD i 0 = l.getD i 0 := by
  induction src with
  | nil => intro l off i h; rfl
  | cons b bs ih =>
    intro l off i h
    show (overwrite (l.set off b) (off + 1) bs).getD i 0 = _
    rw [ih _ _ _ (by omega)]
    rw [List.getD_eq_getElem?_getD, List.getD_eq_getElem?_getD,
      List.getElem?_set_ne (by omega)]

theorem buildSeg_cmdByte (node : Nat) (p : List Nat) (t : Nat) (last : Bool)
    (hp : p.length ≤ 7) :
    (buildSDODownloadSegment node p t last).data.getD 0 0 =
      (if t &&& 1 = 1 then 16 else 0) + (if last then 1 + 2 * (7 - p.length) else 0) := by
  unfold buildSDODownloadSegment
  dsimp only
  rw [overwrite_getD_lt _ _ _ _ (by omega)]
  rw [List.getD_eq_getElem?_getD, List.getElem?_set_self (by simp)]
  dsimp only [Option.getD]
  have hm : (7 - p.length) &&& 7 = 7 - p.length := by
    rw [show (7:Nat) = 2 ^ 3 - 1 from by norm_num, Nat.and_pow_two_sub_one_eq_mod]
    omega
  by_cases htog : t &&& 1 = 1 <;> cases last <;>
    simp only [htog, if_true, if_false, Bool.false_eq_true, hm, sdoCCSDownloadSegment]
  · decide
  · -- toggle set, last segment
    generalize hk : 7 - p.length = k
    have hk7 : k ≤ 7 := by omega
    interval_cases k <;> decide
  · decide
  · generalize hk : 7 - p.length = k
    have hk7 : k ≤ 7 := by omega
    interval_cases k <;> decide

theorem and_one_eq_mod (y : Nat) : y &&& 1 = y % 2 := by
  rw [show (1:Nat) = 2 ^ 1 - 1 from by norm_num, Nat.and_pow_two_sub_one_eq_mod]

theorem and_seven_eq_mod (y : Nat) : y &&& 7 = y % 8 := by
  rw [show (7:Nat) = 2 ^ 3 - 1 from by norm_num, Nat.and_pow_two_sub_one_eq_mod]

theorem buildSeg_bits (node : Nat) (p : List Nat) (t : Nat) (last : Bool)
    (hp : p.length ≤ 7) (ht : t ≤ 1) :
    toggleBit (buildSDODownloadSegment node p t last) = t ∧
    (last = true → cBit (buildSDODownloadSegment node p t last) = 1 ∧
      nBits (buildSDODownloadSegment node p t last) = 7 - p.length) := by
  have hc := buildSeg_cmdByte node p t last hp
  unfold toggleBit cBit nBits
  rw [hc]
  rw [Nat.shiftRight_eq_div_pow, Nat.shiftRight_eq_div_pow]
  rw [and_one_eq_mod, and_one_eq_mod, and_seven_eq_mod]
  simp only [pow_one, show (2:Nat) ^ 4 = 16 from by norm_num]
  refine ⟨?_, fun hl => ⟨?_, ?_⟩⟩
  · interval_cases t <;> cases last <;> simp <;> omega
  · subst hl
    rw [and_one_eq_mod]
    interval_cases t <;> simp <;> omega
  · subst hl
    interval_cases t <;> simp <;> omega

theorem trace_mem_len : ∀ (data : List Nat) (t : Nat),
    ∀ e ∈ downloadSegTrace data t, 1 ≤ e.1.length ∧ e.1.length ≤ 7 := by
  intro data t
  induction data, t using downloadSegTrace.induct with
  | case1 t => simp [downloadSegTrace]
  | case2 data t hne segLen ih =>
    rw [downloadSegTrace]
    rw [dif_neg hne]
    intro e he
    rcases List.mem_cons.mp he with rfl | hmem
    · have h1 : 0 < data.length := List.length_pos.mpr hne
      constructor <;> simp [List.length_take] <;> split <;> omega
    · exact ih e hmem

theorem trace_toggle : ∀ (data : List Nat) (t : Nat), t ≤ 1 →
    ∀ i, i < (downloadSegTrace data t).length →
      ((downloadSegTrace data t).getD i ([], 0, false)).2.1 = (t + i) % 2 := by
  intro data t
  induction data, t using downloadSegTrace.induct with
  | case1 t => intro ht i hi; rw [downloadSegTrace] at hi; simp at hi
  | case2 data t hne segLen ih =>
    intro ht i hi
    rw [downloadSegTrace, dif_neg hne] at hi ⊢
    match i with
    | 0 => simp; omega
    | j + 1 =>
      simp only [List.getD_cons_succ]
      have ht2 : t ^^^ 1 ≤ 1 := by
        interval_cases t <;> decide
      have hj : j < (downloadSegTrace
          (data.drop (if data.length < 7 then data.length else 7)) (t ^^^ 1)).length := by
        simpa using hi
      have h1 := ih ht2 j hj
      have h2 : ((t ^^^ 1) + j) % 2 = (t + (j + 1)) % 2 := by
        interval_cases t <;> simp <;> omega
      exact h1.trans h2

theorem trace_ne_nil (data : List Nat) (t : Nat) (hne : data ≠ []) :
    downloadSegTrace data t ≠ [] := by
  rw [downloadSegTrace, dif_neg hne]
  simp

theorem trace_getLast : ∀ (data : List Nat) (t : Nat), t ≤ 1 → data ≠ [] →
    ∀ e, (downloadSegTrace data t).getLast? = some e →
      e.2.2 = true ∧ 1 ≤ e.1.length ∧ e.1.length ≤ 7 ∧ e.2.1 ≤ 1 := by
  intro data t
  induction data, t using downloadSegTrace.induct with
  | case1 t => intro _ h; exact absurd rfl h
  | case2 data t hne segLen ih =>
    intro ht _ e he
    rw [downloadSegTrace, dif_neg hne] at he
    dsimp only at he
    have hlen : 0 < data.length := List.length_pos.mpr hne
    unfold segLen at ih
    by_cases h7 : data.length ≤ 7
    · have hseg : (if data.length < 7 then data.length else 7) = data.length := by
        split <;> omega
      rw [hseg] at he
      rw [List.drop_length] at he
      rw [downloadSegTrace] at he
      simp at he
      subst he
      refine ⟨rfl, ?_, ?_, ht⟩ <;> simp <;> omega
    · have hseg : (if data.length < 7 then data.length else 7) = 7 := by
        split <;> omega
      rw [hseg] at he
      rw [show (if _h : data.length < 7 then data.length else 7) = 7 from by
        split <;> omega] at ih
      have hdrop : data.drop 7 ≠ [] := by
        intro hc
        have hl := congrArg List.length hc
        simp at hl
        omega
      have hrest := trace_ne_nil (data.drop 7) (t ^^^ 1) hdrop
      have ht2 : t ^^^ 1 ≤ 1 := by interval_cases t <;> decide
      rcases hr : downloadSegTrace (data.drop 7) (t ^^^ 1) with _ | ⟨y, ys⟩
      · exact absurd hr hrest
      · rw [hr, List.getLast?_cons_cons] at he
        exact ih ht2 hdrop e (by rw [hr]; exact he)

theorem trace_eleven (data : List Nat) (h : data.length = 11) :
    downloadSegTrace data 0 = [(data.take 7, 0, false), (data.drop 7, 1, true)] := by
  have hne : data ≠ [] := by
    intro hc
    rw [hc] at h
    simp at h
  rw [downloadSegTrace, dif_neg hne]
  dsimp only
  rw [show (if data.length < 7 then data.length else 7) = 7 from by rw [h]; norm_num]
  have h2 : (data.drop 7).length = 4 := by simp [h]
  have hne2 : data.drop 7 ≠ [] := by
    intro hc
    rw [hc] at h2
    simp at h2
  rw [downloadSegTrace, dif_neg hne2]
  dsimp only
  rw [show (if (data.drop 7).length < 7 then (data.drop 7).length else 7)
      = (data.drop 7).length from by rw [h2]; norm_num]
  rw [List.take_length, List.drop_length]
  rw [downloadSegTrace, dif_pos rfl]
  simp [h, h2]

/-- C2: for every payload longer than 4 bytes, the segmented download loop
produces segments of 1..7 bytes with the toggle starting at 0 and
alternating (segment i carries toggle i % 2); the final segment is flagged
last and its frame's command byte has `c = 1` and `n`-bits `7 - segLen`;
an 11-byte payload yields exactly two segments with toggles 0, 1, the
second with `c = 1` and `n = 3`. -/
theorem sdo_segmented_download_segments (node : Nat) (data : List Nat)
    (h4 : 4 < data.length) :
    (∀ e ∈ downloadSegTrace data 0, 1 ≤ e.1.length ∧ e.1.length ≤ 7) ∧
    (∀ i, i < (downloadSegTrace data 0).length →
      ((downloadSegTrace data 0).getD i ([], 0, false)).2.1 = i % 2) ∧
    downloadSegTrace data 0 ≠ [] ∧
    (∀ e, (downloadSegTrace data 0).getLast? = some e → e.2.2 = true ∧
      cBit (buildSDODownloadSegment node e.1 e.2.1 e.2.2) = 1 ∧
      nBits (buildSDODownloadSegment node e.1 e.2.1 e.2.2) = 7 - e.1.length) ∧
    (data.length = 11 →
      downloadSegTrace data 0 = [(data.take 7, 0, false), (data.drop 7, 1, true)] ∧
      cBit (buildSDODownloadSegment node (data.drop 7) 1 true) = 1 ∧
      nBits (buildSDODownloadSegment node (data.drop 7) 1 true) = 3) := by
  have hne : data ≠ [] := by
    intro hc
    rw [hc] at h4
    simp at h4
  refine ⟨trace_mem_len data 0, ?_, trace_ne_nil data 0 hne, ?_, ?_⟩
  · intro i hi
    have := trace_toggle data 0 (by omega) i hi
    simpa using this
  · intro e he
    obtain ⟨hflag, hl1, hl7, htog⟩ := trace_getLast data 0 (by omega) hne e he
    obtain ⟨_, hbits⟩ := buildSeg_bits node e.1 e.2.1 e.2.2 hl7 htog
    obtain ⟨hcb, hnb⟩ := hbits hflag
    rw [hflag] at hcb hnb ⊢
    exact ⟨rfl, hcb, hnb⟩
  · intro h11
    have hd4 : (data.drop 7).length = 4 := by simp [h11]
    obtain ⟨_, hbits⟩ := buildSeg_bits node (data.drop 7) 1 true (by omega) (by omega)
    obtain ⟨hcb, hnb⟩ := hbits rfl
    rw [hd4] at hnb
    exact ⟨trace_eleven data h11, hcb, hnb⟩

/-- Witness for C2 at a concrete 11-byte payload. -/
theorem sdo_segmented_download_segments_witness :
    downloadSegTrace [0, 1, 2, 3, 4, 5, 6, 7, 8, 9, 10] 0 =
      [([0, 1, 2, 3, 4, 5, 6], 0, false), ([7, 8, 9, 10], 1, true)] ∧
    cBit (buildSDODownloadSegment 1 [7, 8, 9, 10] 1 true) = 1 ∧
    nBits (buildSDODownloadSegment 1 [7, 8, 9, 10] 1 true) = 3 := by
  have h := (sdo_segmented_download_segments 1 [0, 1, 2, 3, 4, 5, 6, 7, 8, 9, 10]
    (by decide)).2.2.2.2 (by decide)
  simpa using h

end Canopen
